import Mathlib

/-!
Verification of the magtorqReflect protocol layer (`magtorquer/mtq_driver.py`).

Bytes are modelled as natural numbers below 256 and byte strings as `List Nat`.
Fallible Python code is modelled with `Except PyErr` / `Option`; exact rational
arithmetic stands in for Python float arithmetic.
-/

namespace Magtorq

/-- Python exception outcomes relevant to the driver.  `malformedPacket`,
`crcMismatch`, `payloadLengthMismatch`, `timeout` and `portNotOpen` are the
distinct `MTQCommunicationError` raise sites of `mtq_driver.py`;
`valueError` is a `ValueError` from `int(.,16)` / `bytes.fromhex` / enum
construction; `outOfRangeValueError` is the `ValueError` raised by
`set_dipole_moment`'s range check; `overflowError` is the `OverflowError`
raised by `int.to_bytes`; `structError` is a `struct.error` from
`struct.unpack` on a wrong-sized buffer. -/
inductive PyErr where
  | malformedPacket
  | crcMismatch
  | payloadLengthMismatch
  | valueError
  | outOfRangeValueError
  | overflowError
  | structError
  | timeout
  | portNotOpen
  deriving DecidableEq, Repr

/-! ### ChecksumEngine: the crc library with
`Configuration(width=8, polynomial=0xEB, init_value=0x00, final_xor_value=0x00,
reverse_input=False, reverse_output=False)` (`CRC_CALCULATOR`). -/

/-- One shift step of the MSB-first CRC-8 register update: shift left, and if
the bit shifted out was set, XOR in the polynomial 0xEB.  The register is
always kept below 256. -/
def crc8Round (r : Nat) : Nat :=
  if 128 ≤ r then ((r * 2) % 256) ^^^ 0xEB else (r * 2) % 256

/-- Processing one input byte: XOR it into the 8-bit register, then do eight
shift steps. -/
def crc8Byte (r b : Nat) : Nat := crc8Round^[8] (r ^^^ b)

/-- `CRC_CALCULATOR.checksum(data)`: non-reflected CRC-8/0xEB with initial
register 0 and no final XOR. -/
def crc8 (bs : List Nat) : Nat := bs.foldl crc8Byte 0

/-! ### ASCII hex rendering, as used by `_encode_packet`
(`f"{v:02X}"`, `bytes.hex().upper()`). -/

/-- ASCII code of the uppercase hex digit of `v < 16` (`'0'` = 48, `'A'` = 65). -/
def hexDigit (v : Nat) : Nat := if v < 10 then 48 + v else 55 + v

/-- The two uppercase-hex ASCII bytes of one byte `b < 256`
(`f"{b:02X}"`, or one byte of `bytes.hex().upper()`). -/
def byteHex (b : Nat) : List Nat := [hexDigit (b / 16 % 16), hexDigit (b % 16)]

/-- `payload.hex().upper()`: two uppercase hex chars per payload byte. -/
def bytesHex (bs : List Nat) : List Nat := bs.flatMap byteHex

/-- `n.to_bytes(2, "big").hex().upper()` for `n < 65536`: four uppercase hex
chars of a 16-bit big-endian value. -/
def word16Hex (n : Nat) : List Nat := byteHex (n / 256) ++ byteHex (n % 256)

/-! ### FrameCodec (`MTQDriver._encode_packet` / `MTQDriver._decode_response`) -/

/-- The ASCII body of a frame: SRC, DST, CMD as two uppercase hex chars each,
LEN as four uppercase hex chars, then the payload in hex
(`b"".join(ascii_parts)` in `_encode_packet`). -/
def encodeBody (host mtq cmd : Nat) (payload : List Nat) : List Nat :=
  byteHex host ++ byteHex mtq ++ byteHex cmd ++ word16Hex payload.length ++ bytesHex payload

/-- The complete frame `b"$" + body + b":" + crc-as-2-hex + b"\n"` built by
`_encode_packet` (36 = `'$'`, 58 = `':'`, 10 = `'\n'`); the CRC is computed
over `body + b":"`. -/
def encodeFrame (host mtq cmd : Nat) (payload : List Nat) : List Nat :=
  36 :: (encodeBody host mtq cmd payload ++
    58 :: (byteHex (crc8 (encodeBody host mtq cmd payload ++ [58])) ++ [10]))

/-- `MTQDriver._encode_packet`.  `len(payload).to_bytes(2, "big")` is computed
first and raises `OverflowError` exactly when the payload is longer than
65535 bytes; otherwise the frame is assembled. -/
def encode_packet (host mtq cmd : Nat) (payload : List Nat) :
    Except PyErr (List Nat) :=
  if payload.length < 65536 then .ok (encodeFrame host mtq cmd payload)
  else .error .overflowError

/-- Value of one ASCII hex-digit byte, as accepted inside `int(., 16)` and
`bytes.fromhex` (the sign/whitespace/underscore forms `int` also accepts can
never reach the parse sites modelled here, which only ever see frame bytes). -/
def hexDigitVal (c : Nat) : Option Nat :=
  if 48 ≤ c ∧ c ≤ 57 then some (c - 48)
  else if 65 ≤ c ∧ c ≤ 70 then some (c - 55)
  else if 97 ≤ c ∧ c ≤ 102 then some (c - 87)
  else none

/-- Accumulator loop of `int(s, 16)` over the digit bytes. -/
def parseHexCore : Nat → List Nat → Option Nat
  | acc, [] => some acc
  | acc, c :: cs =>
    match hexDigitVal c with
    | some v => parseHexCore (acc * 16 + v) cs
    | none => none

/-- `int(s, 16)`: `ValueError` (`none`) on an empty or non-hex string. -/
def parseHexNat (cs : List Nat) : Option Nat :=
  if cs.isEmpty then none else parseHexCore 0 cs

/-- `bytes.fromhex` on an ASCII string of hex-digit pairs: `none` on an odd
length or a non-hex character (covering both the `UnicodeDecodeError` of
`.decode("ascii")` and the `ValueError` of `fromhex`). -/
def hexPairsToBytes : List Nat → Option (List Nat)
  | [] => some []
  | [_] => none
  | c1 :: c2 :: rest =>
    match hexDigitVal c1, hexDigitVal c2, hexPairsToBytes rest with
    | some hi, some lo, some tl => some ((hi * 16 + lo) :: tl)
    | _, _, _ => none

/-- `body_with_crc.rsplit(b":", 1)` when a colon is present: split at the
last colon, dropping it. -/
def rsplitColon (bs : List Nat) : List Nat × List Nat :=
  let j := bs.reverse.indexOf 58
  (bs.take (bs.length - j - 1), bs.drop (bs.length - j))

/-- Field parsing of `_decode_response` after the checksum test:
`src, dst, cmd, length = int(body[0:2],16), int(body[2:4],16),
int(body[4:6],16), int(body[6:10],16)`, the payload-length check, then
`bytes.fromhex(payload_ascii.decode("ascii")) if length else b""`. -/
def decodeFields (body : List Nat) : Except PyErr (Nat × Nat × Nat × List Nat) :=
  match parseHexNat (body.take 2), parseHexNat ((body.drop 2).take 2),
        parseHexNat ((body.drop 4).take 2), parseHexNat ((body.drop 6).take 4) with
  | some src, some dst, some cmd, some length =>
    let payloadAscii := body.drop 10
    if payloadAscii.length ≠ length * 2 then .error .payloadLengthMismatch
    else if length = 0 then .ok (src, dst, cmd, [])
    else
      match hexPairsToBytes payloadAscii with
      | some payload => .ok (src, dst, cmd, payload)
      | none => .error .valueError
  | _, _, _, _ => .error .valueError

/-- Checksum comparison of `_decode_response`:
`calculated_crc = CRC_CALCULATOR.checksum(body + b":")`,
`received_crc = int(crc_ascii, 16)`, mismatch raises the CRC
`MTQCommunicationError`, then the fields are parsed. -/
def decodeChecked (body crcAscii : List Nat) : Except PyErr (Nat × Nat × Nat × List Nat) :=
  match parseHexNat crcAscii with
  | none => .error .valueError
  | some received =>
    if crc8 (body ++ [58]) ≠ received then .error .crcMismatch
    else decodeFields body

/-- `MTQDriver._decode_response`: the structural test
(`startswith(b"$")`, `endswith(b"\n")`, `b":" in frame`), then
`frame[1:-1].rsplit(b":", 1)`, checksum comparison and field parsing. -/
def decode_response (frame : List Nat) : Except PyErr (Nat × Nat × Nat × List Nat) :=
  if frame.head? = some 36 ∧ frame.getLast? = some 10 ∧ 58 ∈ frame then
    let s := rsplitColon ((frame.drop 1).dropLast)
    decodeChecked s.1 s.2
  else .error .malformedPacket

/-- Flipping bit `k` of the byte at index `i` of a byte string (a single-bit
wire corruption). -/
def flipBit (bs : List Nat) (i k : Nat) : List Nat :=
  bs.set i (bs.getD i 0 ^^^ 2 ^ k)

/-! ### TransportSession (`MTQDriver._transport`) -/

/-- Response handling of `_transport` once a nonempty line has been read:
decode it, and return the payload.  The decoded destination and command are
discarded (`src, _, _, resp_payload = self._decode_response(resp)`); only the
source is compared to `mtq_address`, and a mismatch merely logs a warning.
The `Bool` records whether that warning was logged. -/
def transportHandleResponse (mtqAddress : Nat) (resp : List Nat) :
    Except PyErr (List Nat × Bool) :=
  match decode_response resp with
  | .error e => .error e
  | .ok (src, _, _, payload) => .ok (payload, decide (src ≠ mtqAddress))

/-- One serial-stream operation performed inside `_transport`:
`serial_conn.write(pkt)` or `serial_conn.readline()`. -/
inductive SerialEvent where
  | write (frame : List Nat)
  | read
  deriving DecidableEq, Repr

/-- The serial-stream events of one `_transport` call on an open port: write
the encoded frame, then — only if a response is expected — one `readline`.
`_transport` acquires no lock around this sequence. -/
def transportEvents (host mtq cmd : Nat) (payload : List Nat)
    (expectResponse : Bool) : List SerialEvent :=
  SerialEvent.write (encodeFrame host mtq cmd payload) ::
    (if expectResponse then [SerialEvent.read] else [])

/-- An arbitrary interleaving of the events of two concurrent execution
contexts sharing the stream (the foreground caller and the `WatchdogPatter`
keep-alive thread); with no lock in `_transport`, every interleaving is
schedulable. -/
inductive Interleave : List SerialEvent → List SerialEvent → List SerialEvent → Prop where
  | nil : Interleave [] [] []
  | left {x xs ys zs} : Interleave xs ys zs → Interleave (x :: xs) ys (x :: zs)
  | right {y xs ys zs} : Interleave xs ys zs → Interleave xs (y :: ys) (y :: zs)

/-- A trace containing two writes with no read between them — the wire
corruption / response misattribution scenario of the spec. -/
def hasAdjacentWrites : List SerialEvent → Bool
  | .write _ :: .write _ :: _ => true
  | _ :: rest => hasAdjacentWrites rest
  | [] => false

/-! ### DeviceFacade payload decoding (`MTQDriver` high-level API)

Each `get_*`/`who_am_i`/`identify` method below is modelled as the function
from the response payload handed back by `_transport` to the value the method
returns; `.ok none` is Python `None`. -/

/-- `struct.unpack(">h", pl)[0]`: signed 16-bit big-endian value of a 2-byte
buffer. -/
def int16FromBytesBE (b0 b1 : Nat) : Int :=
  if b0 * 256 + b1 < 32768 then (b0 * 256 + b1 : Int)
  else (b0 * 256 + b1 : Int) - 65536

/-- `int.from_bytes(pl, "big")` (any length). -/
def natFromBytesBE (bs : List Nat) : Nat := bs.foldl (fun a b => a * 256 + b) 0

/-- `MTQDriver.who_am_i`: `return self._transport(Command.WHO_AM_I)` — the
payload bytes are returned as they are (for an empty payload this is Python's
`b""`, modelled as `some []`, not `None`). -/
def who_am_i (pl : List Nat) : Option (List Nat) := some pl

/-- `MTQDriver.identify`: `None` on a falsy payload, else
`struct.unpack(">BBBB", pl)` into hardware version `ww.xx` and software
version `yy.zz` (the two dotted strings are modelled as the pairs of numbers
they render). -/
def identify (pl : List Nat) : Except PyErr (Option ((Nat × Nat) × (Nat × Nat))) :=
  match pl with
  | [] => .ok none
  | [ww, xx, yy, zz] => .ok (some ((ww, xx), (yy, zz)))
  | _ => .error .structError

/-- `MTQDriver.get_serial_no`: `struct.unpack(">I", pl)[0] if pl else None`. -/
def get_serial_no (pl : List Nat) : Except PyErr (Option Nat) :=
  match pl with
  | [] => .ok none
  | [a, b, c, d] => .ok (some (((a * 256 + b) * 256 + c) * 256 + d))
  | _ => .error .structError

/-- Device status flags (ICD §3.2.9): `MTQStatus.OK = 0x00`,
`MTQStatus.OVERCURRENT = 0x0F`. -/
inductive MTQStatus where
  | statusOK
  | overcurrent
  deriving DecidableEq, Repr

/-- `MTQDriver.get_status`: `MTQStatus(int.from_bytes(pl, "big")) if pl else
None`; an unknown value raises `ValueError` from the enum constructor. -/
def get_status (pl : List Nat) : Except PyErr (Option MTQStatus) :=
  match pl with
  | [] => .ok none
  | _ =>
    match natFromBytesBE pl with
    | 0x00 => .ok (some .statusOK)
    | 0x0F => .ok (some .overcurrent)
    | _ => .error .valueError

/-- `MTQDriver.get_temperature`: `None` on a falsy payload, else
`(struct.unpack(">H", pl)[0] / 10.0) - 273.15` in exact arithmetic. -/
def get_temperature (pl : List Nat) : Except PyErr (Option ℚ) :=
  match pl with
  | [] => .ok none
  | [b0, b1] => .ok (some ((b0 * 256 + b1 : ℚ) / 10 - 27315 / 100))
  | _ => .error .structError

/-- `MTQDriver.get_dipole_moment`: `struct.unpack(">h", pl)[0] if pl else
None`. -/
def get_dipole_moment (pl : List Nat) : Except PyErr (Option Int) :=
  match pl with
  | [] => .ok none
  | [b0, b1] => .ok (some (int16FromBytesBE b0 b1))
  | _ => .error .structError

/-- A Python float result: finite values carried exactly. -/
inductive PyFloat where
  | finite (q : ℚ)
  | inf
  | negInf
  | nan
  deriving DecidableEq, Repr

/-- The IEEE-754 binary32 value of a 32-bit pattern (what
`struct.unpack(">f", .)` yields). -/
def f32FromBits (u : Nat) : PyFloat :=
  let s : Nat := u / 2 ^ 31 % 2
  let e : Nat := u / 2 ^ 23 % 2 ^ 8
  let m : Nat := u % 2 ^ 23
  if e = 255 then (if m = 0 then (if s = 1 then .negInf else .inf) else .nan)
  else
    let mag : ℚ := if e = 0 then (m : ℚ) * 2 / 2 ^ 150 else (2 ^ 23 + (m : ℚ)) * 2 ^ e / 2 ^ 150
    .finite (if s = 1 then -mag else mag)

/-- `MTQDriver.get_dipole_moment_setpoint`: `struct.unpack(">f", pl)[0] if pl
else None`. -/
def get_dipole_moment_setpoint (pl : List Nat) : Except PyErr (Option PyFloat) :=
  match pl with
  | [] => .ok none
  | [a, b, c, d] => .ok (some (f32FromBits (((a * 256 + b) * 256 + c) * 256 + d)))
  | _ => .error .structError

/-! ### `MTQDriver.set_dipole_moment` -/

/-- Python `round` on an exact value: nearest integer, ties to even. -/
def pyRound (q : ℚ) : Int :=
  if q - ⌊q⌋ < 1 / 2 then ⌊q⌋
  else if 1 / 2 < q - ⌊q⌋ then ⌊q⌋ + 1
  else if ⌊q⌋ % 2 = 0 then ⌊q⌋ else ⌊q⌋ + 1

/-- `m.to_bytes(2, "big", signed=True)` for `-32768 ≤ m ≤ 32767`: big-endian
two's complement. -/
def toBytes2BESigned (m : Int) : List Nat :=
  [((m % 65536).toNat) / 256, ((m % 65536).toNat) % 256]

/-- `MTQDriver.set_dipole_moment`: round the argument, range-check it before
any serial I/O (`raise ValueError` outside ±30000), and otherwise hand the
2-byte signed big-endian payload to `_transport` — the `.ok` value is the
payload written. -/
def set_dipole_moment (mAm2 : ℚ) : Except PyErr (List Nat) :=
  let m := pyRound mAm2
  if -30000 ≤ m ∧ m ≤ 30000 then .ok (toBytes2BESigned m)
  else .error .outOfRangeValueError

/-! ### `MTQDriver.disconnect` -/

/-- Externally visible steps of `disconnect`: the best-effort
`set_dipole_moment(0.0)`, the best-effort `stop()`, and
`serial_conn.close()`. -/
inductive DAction where
  | safeSetZero
  | safeStop
  | close
  deriving DecidableEq, Repr

/-- Result of a `disconnect` call. `conn` is the final `serial_conn` field
(`none` = Python `None`, `some b` = a handle with `is_open = b`); `actions`
the steps performed in order; `raised` the exception propagating out of
`disconnect`; `warned` whether the `except MTQCommunicationError` branch
logged its warning. -/
structure DisconnectResult where
  conn : Option Bool
  actions : List DAction
  raised : Option PyErr
  warned : Bool
  deriving DecidableEq, Repr

/-- `MTQDriver.disconnect`, parametrised by the communication outcome of the
two safety calls (`none` = the call returned, `some e` = it raised the
`MTQCommunicationError` `e`).  If the port is open it tries
`set_dipole_moment(0.0)` then `stop()`, catches `MTQCommunicationError` with
a logged warning (a raise from the first call skips the second), closes the
stream, and in every path finishes with `serial_conn = None` and nothing
raised. -/
def disconnect (conn : Option Bool) (setZeroErr stopErr : Option PyErr) :
    DisconnectResult :=
  match conn with
  | some true =>
    match setZeroErr with
    | some _ => ⟨none, [.safeSetZero, .close], none, true⟩
    | none =>
      match stopErr with
      | some _ => ⟨none, [.safeSetZero, .safeStop, .close], none, true⟩
      | none => ⟨none, [.safeSetZero, .safeStop, .close], none, false⟩
  | _ => ⟨none, [], none, false⟩

/-- Inverse of one CRC shift step on the 8-bit register (used only to prove
the step injective: an even register came from a plain shift, an odd one from
a shift followed by the XOR with the odd polynomial 0xEB). -/
def crc8RoundInv (y : Nat) : Nat :=
  if y % 2 = 1 then ((y ^^^ 0xEB) + 256) / 2 else y / 2

/-- The byte string the spec claims for the PING frame,
`b"$11600400 00:CC\n"` (note the space at index 9 and the checksum `CC`). -/
def claimedPingLiteral : List Nat :=
  [36, 49, 49, 54, 48, 48, 52, 48, 48, 32, 48, 48, 58, 67, 67, 10]

end Magtorq

namespace Magtorq

/-! ## CRC-8 lemmas: the register stays below 256, one shift step is
injective there, and a single corrupted input byte always changes the
checksum. -/

theorem crc8Round_lt (r : Nat) : crc8Round r < 256 := by
  unfold crc8Round
  split
  · exact Nat.xor_lt_two_pow (n := 8) (Nat.mod_lt _ (by norm_num)) (by norm_num)
  · exact Nat.mod_lt _ (by norm_num)

set_option maxRecDepth 4096 in
theorem crc8RoundInv_crc8Round : ∀ r < 256, crc8RoundInv (crc8Round r) = r := by decide

theorem crc8Round_injOn {a b : Nat} (ha : a < 256) (hb : b < 256)
    (h : crc8Round a = crc8Round b) : a = b := by
  have h1 := crc8RoundInv_crc8Round a ha
  have h2 := crc8RoundInv_crc8Round b hb
  rw [h] at h1
  omega

theorem crc8RoundIter_lt (n : Nat) {r : Nat} (h : r < 256) : crc8Round^[n] r < 256 := by
  induction n generalizing r with
  | zero => exact h
  | succ n ih =>
    rw [Function.iterate_succ_apply]
    exact ih (crc8Round_lt r)

theorem crc8RoundIter_injOn (n : Nat) {a b : Nat} (ha : a < 256) (hb : b < 256)
    (h : crc8Round^[n] a = crc8Round^[n] b) : a = b := by
  induction n generalizing a b with
  | zero => exact h
  | succ n ih =>
    rw [Function.iterate_succ_apply', Function.iterate_succ_apply'] at h
    exact ih ha hb (crc8Round_injOn (crc8RoundIter_lt n ha) (crc8RoundIter_lt n hb) h)

theorem crc8Byte_lt {r b : Nat} (hr : r < 256) (hb : b < 256) : crc8Byte r b < 256 :=
  crc8RoundIter_lt 8 (Nat.xor_lt_two_pow (n := 8) hr hb)

theorem crc8Byte_injOn_left {s t b : Nat} (hs : s < 256) (ht : t < 256) (hb : b < 256)
    (h : crc8Byte s b = crc8Byte t b) : s = t :=
  Nat.xor_left_inj.1 (crc8RoundIter_injOn 8 (Nat.xor_lt_two_pow (n := 8) hs hb)
    (Nat.xor_lt_two_pow (n := 8) ht hb) h)

theorem crc8Byte_injOn_right {s b c : Nat} (hs : s < 256) (hb : b < 256) (hc : c < 256)
    (h : crc8Byte s b = crc8Byte s c) : b = c :=
  Nat.xor_right_inj.1 (crc8RoundIter_injOn 8 (Nat.xor_lt_two_pow (n := 8) hs hb)
    (Nat.xor_lt_two_pow (n := 8) hs hc) h)

theorem crc8_foldl_lt (l : List Nat) (hl : ∀ b ∈ l, b < 256) {s : Nat} (hs : s < 256) :
    l.foldl crc8Byte s < 256 := by
  induction l generalizing s with
  | nil => exact hs
  | cons b l ih =>
    simp only [List.foldl_cons]
    exact ih (fun x hx => hl x (List.mem_cons_of_mem _ hx))
      (crc8Byte_lt hs (hl b (List.mem_cons_self ..)))

theorem crc8_foldl_ne (l : List Nat) (hl : ∀ b ∈ l, b < 256) {s t : Nat}
    (hs : s < 256) (ht : t < 256) (hne : s ≠ t) :
    l.foldl crc8Byte s ≠ l.foldl crc8Byte t := by
  induction l generalizing s t with
  | nil => exact hne
  | cons b l ih =>
    have hb : b < 256 := hl b (List.mem_cons_self ..)
    simp only [List.foldl_cons]
    exact ih (fun x hx => hl x (List.mem_cons_of_mem _ hx))
      (crc8Byte_lt hs hb) (crc8Byte_lt ht hb)
      (fun h => hne (crc8Byte_injOn_left hs ht hb h))

theorem xor_two_pow_ne (b k : Nat) : b ^^^ 2 ^ k ≠ b := by
  intro h
  have h0 : b ^^^ 2 ^ k = b ^^^ 0 := by rw [Nat.xor_zero]; exact h
  exact absurd (Nat.xor_right_inj.1 h0)
    (Nat.pos_iff_ne_zero.1 (Nat.pos_pow_of_pos k (by norm_num)))

theorem crc8_foldl_set_ne (B : List Nat) (j : Nat) (tail : List Nat) (s : Nat)
    (hB : ∀ b ∈ B, b < 256) (htail : ∀ b ∈ tail, b < 256) (hs : s < 256)
    (hj : j < B.length) (k : Nat) (hk : k < 8) :
    (B.set j (B.getD j 0 ^^^ 2 ^ k) ++ tail).foldl crc8Byte s ≠
      (B ++ tail).foldl crc8Byte s := by
  induction B generalizing j s with
  | nil => simp at hj
  | cons b B ih =>
    have hb : b < 256 := hB b (List.mem_cons_self ..)
    have hB' : ∀ x ∈ B, x < 256 := fun x hx => hB x (List.mem_cons_of_mem _ hx)
    have hek : (2 : Nat) ^ k < 256 := by
      calc (2:Nat) ^ k < 2 ^ 8 := Nat.pow_lt_pow_right (by norm_num) hk
      _ = 256 := by norm_num
    cases j with
    | zero =>
      simp only [List.set_cons_zero, List.getD_cons_zero, List.cons_append, List.foldl_cons]
      apply crc8_foldl_ne (B ++ tail)
        (fun x hx => by rcases List.mem_append.1 hx with h | h; exact hB' x h; exact htail x h)
        (crc8Byte_lt hs (Nat.xor_lt_two_pow (n := 8) hb hek)) (crc8Byte_lt hs hb)
      intro h
      exact xor_two_pow_ne b k
        (crc8Byte_injOn_right hs (Nat.xor_lt_two_pow (n := 8) hb hek) hb h)
    | succ j =>
      simp only [List.set_cons_succ, List.getD_cons_succ, List.cons_append, List.foldl_cons]
      exact ih j (crc8Byte s b) hB' (crc8Byte_lt hs hb) (Nat.lt_of_succ_lt_succ hj)

/-! ## ASCII-hex rendering and parsing lemmas -/

theorem hexDigit_lt {v : Nat} (h : v < 16) : hexDigit v < 256 := by
  unfold hexDigit; split <;> omega

theorem hexDigit_ne_58 {v : Nat} (h : v < 16) : hexDigit v ≠ 58 := by
  unfold hexDigit; split <;> omega

theorem hexDigitVal_hexDigit {v : Nat} (h : v < 16) : hexDigitVal (hexDigit v) = some v := by
  rcases Nat.lt_or_ge v 10 with hv | hv
  · rw [show hexDigit v = 48 + v from if_pos hv]
    unfold hexDigitVal
    rw [if_pos (by omega : 48 ≤ 48 + v ∧ 48 + v ≤ 57)]
    exact congrArg some (by omega)
  · rw [show hexDigit v = 55 + v from if_neg (by omega)]
    unfold hexDigitVal
    rw [if_neg (by omega : ¬(48 ≤ 55 + v ∧ 55 + v ≤ 57)),
      if_pos (by omega : 65 ≤ 55 + v ∧ 55 + v ≤ 70)]
    exact congrArg some (by omega)

theorem parseHexNat_pair {a b : Nat} (ha : a < 16) (hb : b < 16) :
    parseHexNat [hexDigit a, hexDigit b] = some (a * 16 + b) := by
  simp only [parseHexNat, List.isEmpty_cons, Bool.false_eq_true, if_false, parseHexCore,
    hexDigitVal_hexDigit ha, hexDigitVal_hexDigit hb]
  exact congrArg some (by omega)

theorem parseHexNat_quad {a b c d : Nat} (ha : a < 16) (hb : b < 16) (hc : c < 16)
    (hd : d < 16) :
    parseHexNat [hexDigit a, hexDigit b, hexDigit c, hexDigit d] =
      some (((a * 16 + b) * 16 + c) * 16 + d) := by
  simp only [parseHexNat, List.isEmpty_cons, Bool.false_eq_true, if_false, parseHexCore,
    hexDigitVal_hexDigit ha, hexDigitVal_hexDigit hb, hexDigitVal_hexDigit hc,
    hexDigitVal_hexDigit hd]
  exact congrArg some (by omega)

theorem mem_byteHex {c b : Nat} (h : c ∈ byteHex b) : c < 256 ∧ c ≠ 58 := by
  rcases List.mem_cons.1 h with h1 | h1
  · exact h1 ▸ ⟨hexDigit_lt (Nat.mod_lt _ (by norm_num)), hexDigit_ne_58 (Nat.mod_lt _ (by norm_num))⟩
  · rcases List.mem_cons.1 h1 with h2 | h2
    · exact h2 ▸ ⟨hexDigit_lt (Nat.mod_lt _ (by norm_num)), hexDigit_ne_58 (Nat.mod_lt _ (by norm_num))⟩
    · simp at h2

theorem mem_bytesHex {c : Nat} {p : List Nat} (h : c ∈ bytesHex p) : c < 256 ∧ c ≠ 58 := by
  rcases List.mem_flatMap.1 h with ⟨b, _, hc⟩
  exact mem_byteHex hc

theorem mem_word16Hex {c n : Nat} (h : c ∈ word16Hex n) : c < 256 ∧ c ≠ 58 := by
  rcases List.mem_append.1 h with h1 | h1 <;> exact mem_byteHex h1

theorem mem_encodeBody {x host mtq cmd : Nat} {p : List Nat}
    (hx : x ∈ encodeBody host mtq cmd p) : x < 256 ∧ x ≠ 58 := by
  unfold encodeBody at hx
  rcases List.mem_append.1 hx with h1 | h1
  · rcases List.mem_append.1 h1 with h2 | h2
    · rcases List.mem_append.1 h2 with h3 | h3
      · rcases List.mem_append.1 h3 with h4 | h4
        · exact mem_byteHex h4
        · exact mem_byteHex h4
      · exact mem_byteHex h3
    · exact mem_word16Hex h2
  · exact mem_bytesHex h1

theorem bytesHex_length (p : List Nat) : (bytesHex p).length = 2 * p.length := by
  induction p with
  | nil => rfl
  | cons b p ih =>
    simp only [bytesHex, List.flatMap_cons, List.length_append, List.length_cons] at *
    simp [byteHex, ih]
    omega

theorem hexPairsToBytes_bytesHex (p : List Nat) (hp : ∀ b ∈ p, b < 256) :
    hexPairsToBytes (bytesHex p) = some p := by
  induction p with
  | nil => rfl
  | cons b p ih =>
    have hb : b < 256 := hp b (List.mem_cons_self ..)
    have ih' := ih (fun x hx => hp x (List.mem_cons_of_mem _ hx))
    have hshape : bytesHex (b :: p) =
        hexDigit (b / 16 % 16) :: hexDigit (b % 16) :: bytesHex p := by
      simp [bytesHex, byteHex]
    rw [hshape]
    simp only [hexPairsToBytes, hexDigitVal_hexDigit (Nat.mod_lt _ (by norm_num) : b / 16 % 16 < 16),
      hexDigitVal_hexDigit (Nat.mod_lt _ (by norm_num) : b % 16 < 16), ih']
    rw [show b / 16 % 16 * 16 + b % 16 = b by omega]

/-! ## Decoder structure lemmas -/

theorem rsplitColon_append (B crcA : List Nat) (h : (58 : Nat) ∉ crcA) :
    rsplitColon (B ++ 58 :: crcA) = (B, crcA) := by
  unfold rsplitColon
  have hidx : (B ++ 58 :: crcA).reverse.indexOf 58 = crcA.length := by
    rw [List.reverse_append, List.reverse_cons]
    rw [List.indexOf_append_of_mem (by simp)]
    rw [List.indexOf_append_of_not_mem (by simpa using h)]
    simp [List.indexOf_cons_self]
  have hlen : (B ++ 58 :: crcA).length = B.length + crcA.length + 1 := by
    simp; omega
  rw [hidx, hlen]
  show (List.take (B.length + crcA.length + 1 - crcA.length - 1) (B ++ 58 :: crcA),
    List.drop (B.length + crcA.length + 1 - crcA.length) (B ++ 58 :: crcA)) = (B, crcA)
  have e1 : B.length + crcA.length + 1 - crcA.length - 1 = B.length := by omega
  have e2 : B.length + crcA.length + 1 - crcA.length = B.length + 1 := by omega
  rw [e1, e2]
  refine Prod.ext ?_ ?_
  · show (B ++ 58 :: crcA).take B.length = B
    rw [List.take_left' rfl]
  · show (B ++ 58 :: crcA).drop (B.length + 1) = crcA
    rw [show B ++ 58 :: crcA = (B ++ [58]) ++ crcA by simp]
    exact List.drop_left' (by simp)

theorem decode_response_shape (B crcA : List Nat) (h : (58 : Nat) ∉ crcA) :
    decode_response (36 :: (B ++ 58 :: (crcA ++ [10]))) = decodeChecked B crcA := by
  have hframe : (36 : Nat) :: (B ++ 58 :: (crcA ++ [10])) =
      (36 :: (B ++ 58 :: crcA)) ++ [10] := by simp
  unfold decode_response
  rw [if_pos ?hcond]
  case hcond =>
    refine ⟨rfl, ?_, ?_⟩
    · rw [hframe, List.getLast?_concat]
    · simp
  have harg : (((36 : Nat) :: (B ++ 58 :: (crcA ++ [10]))).drop 1).dropLast =
      B ++ 58 :: crcA := by
    rw [hframe]
    simp only [List.cons_append, List.drop_succ_cons, List.drop_zero]
    exact List.dropLast_concat ..
  rw [harg, rsplitColon_append B crcA h]

theorem decodeFields_encodeBody (host mtq cmd : Nat) (p : List Nat)
    (hh : host < 256) (hm : mtq < 256) (hc : cmd < 256) (hp : p.length < 65536)
    (hb : ∀ b ∈ p, b < 256) :
    decodeFields (encodeBody host mtq cmd p) = .ok (host, mtq, cmd, p) := by
  have hcons : encodeBody host mtq cmd p =
      hexDigit (host / 16 % 16) :: hexDigit (host % 16) ::
      hexDigit (mtq / 16 % 16) :: hexDigit (mtq % 16) ::
      hexDigit (cmd / 16 % 16) :: hexDigit (cmd % 16) ::
      hexDigit (p.length / 256 / 16 % 16) :: hexDigit (p.length / 256 % 16) ::
      hexDigit (p.length % 256 / 16 % 16) :: hexDigit (p.length % 256 % 16) ::
      bytesHex p := by
    simp [encodeBody, byteHex, word16Hex]
  have h16 : ∀ x : Nat, x % 16 < 16 := fun x => Nat.mod_lt _ (by norm_num)
  have e1 : parseHexNat ((encodeBody host mtq cmd p).take 2) = some host := by
    rw [hcons]
    simp only [List.take_succ_cons, List.take_zero]
    rw [parseHexNat_pair (h16 _) (h16 _)]
    exact congrArg some (by omega)
  have e2 : parseHexNat (((encodeBody host mtq cmd p).drop 2).take 2) = some mtq := by
    rw [hcons]
    simp only [List.drop_succ_cons, List.drop_zero, List.take_succ_cons, List.take_zero]
    rw [parseHexNat_pair (h16 _) (h16 _)]
    exact congrArg some (by omega)
  have e3 : parseHexNat (((encodeBody host mtq cmd p).drop 4).take 2) = some cmd := by
    rw [hcons]
    simp only [List.drop_succ_cons, List.drop_zero, List.take_succ_cons, List.take_zero]
    rw [parseHexNat_pair (h16 _) (h16 _)]
    exact congrArg some (by omega)
  have e4 : parseHexNat (((encodeBody host mtq cmd p).drop 6).take 4) = some p.length := by
    rw [hcons]
    simp only [List.drop_succ_cons, List.drop_zero, List.take_succ_cons, List.take_zero]
    rw [parseHexNat_quad (h16 _) (h16 _) (h16 _) (h16 _)]
    exact congrArg some (by omega)
  have e5 : (encodeBody host mtq cmd p).drop 10 = bytesHex p := by
    rw [hcons]
    simp only [List.drop_succ_cons, List.drop_zero]
  unfold decodeFields
  rw [e1, e2, e3, e4]
  simp only [e5, bytesHex_length]
  rw [if_neg (by omega : ¬2 * p.length ≠ p.length * 2)]
  by_cases hL : p.length = 0
  · rw [if_pos hL, List.length_eq_zero.1 hL]
  · rw [if_neg hL, hexPairsToBytes_bytesHex p hb]

theorem decodeChecked_of_match {body crcA : List Nat} {c : Nat}
    (hA : parseHexNat crcA = some c) (hcrc : crc8 (body ++ [58]) = c) :
    decodeChecked body crcA = decodeFields body := by
  simp [decodeChecked, hA, hcrc]

theorem decodeChecked_of_mismatch {body crcA : List Nat} {c : Nat}
    (hA : parseHexNat crcA = some c) (hcrc : crc8 (body ++ [58]) ≠ c) :
    decodeChecked body crcA = .error .crcMismatch := by
  simp [decodeChecked, hA, hcrc]

/-- `parseHexNat` recovers the byte rendered by `byteHex`. -/
theorem parseHexNat_byteHex {b : Nat} (hb : b < 256) :
    parseHexNat (byteHex b) = some b := by
  unfold byteHex
  rw [parseHexNat_pair (Nat.mod_lt _ (by norm_num)) (Nat.mod_lt _ (by norm_num))]
  exact congrArg some (by omega)

/-- The checksum of an encoded frame's CRC input is below 256. -/
theorem crc8_encodeBody_lt (host mtq cmd : Nat) (p : List Nat) :
    crc8 (encodeBody host mtq cmd p ++ [58]) < 256 := by
  apply crc8_foldl_lt _ _ (by norm_num)
  intro b hbmem
  rcases List.mem_append.1 hbmem with h1 | h1
  · exact (mem_encodeBody h1).1
  · simp at h1; omega

/-- Decoding an encoded frame recovers the encoded tuple. -/
theorem decode_encode (host mtq cmd : Nat) (p : List Nat)
    (hh : host < 256) (hm : mtq < 256) (hc : cmd < 256) (hp : p.length < 65536)
    (hb : ∀ b ∈ p, b < 256) :
    decode_response (encodeFrame host mtq cmd p) = .ok (host, mtq, cmd, p) := by
  unfold encodeFrame
  rw [decode_response_shape _ _ (fun hmem => ((mem_byteHex hmem).2 rfl).elim)]
  rw [decodeChecked_of_match (parseHexNat_byteHex (crc8_encodeBody_lt ..)) rfl]
  exact decodeFields_encodeBody host mtq cmd p hh hm hc hp hb

/-- A single-bit corruption of a frame byte strictly between the `'$'` and the
`':'` separator (frame index `j + 1` with `j` inside the ASCII body) is caught
by the checksum comparison: decode fails with the CRC mismatch error. -/
theorem decode_flip_body (host mtq cmd : Nat) (p : List Nat) (j k : Nat)
    (hj : j < (encodeBody host mtq cmd p).length) (hk : k < 8) :
    decode_response (flipBit (encodeFrame host mtq cmd p) (j + 1) k) =
      .error .crcMismatch := by
  have hframe : encodeFrame host mtq cmd p =
      36 :: (encodeBody host mtq cmd p ++ 58 ::
        (byteHex (crc8 (encodeBody host mtq cmd p ++ [58])) ++ [10])) := rfl
  have hflip : flipBit (encodeFrame host mtq cmd p) (j + 1) k =
      36 :: ((encodeBody host mtq cmd p).set j
          ((encodeBody host mtq cmd p).getD j 0 ^^^ 2 ^ k) ++ 58 ::
        (byteHex (crc8 (encodeBody host mtq cmd p ++ [58])) ++ [10])) := by
    unfold flipBit
    rw [hframe, List.getD_cons_succ, List.getD_append _ _ _ _ hj, List.set_cons_succ,
      List.set_append_left _ _ hj]
  rw [hflip]
  rw [decode_response_shape _ _ (fun hmem => ((mem_byteHex hmem).2 rfl).elim)]
  refine decodeChecked_of_mismatch (parseHexNat_byteHex (crc8_encodeBody_lt ..)) ?_
  exact crc8_foldl_set_ne (encodeBody host mtq cmd p) j [58] 0
    (fun b hbm => (mem_encodeBody hbm).1)
    (fun b hbm => by simp at hbm; omega) (by norm_num) hj k hk

/-- A single-bit corruption of the `':'` separator byte (frame index
`bodyLength + 1`) leaves no colon anywhere in the frame, so decode fails with
the malformed-packet error rather than the CRC mismatch one. -/
theorem decode_flip_colon (host mtq cmd : Nat) (p : List Nat) (k : Nat) (hk : k < 8) :
    decode_response (flipBit (encodeFrame host mtq cmd p)
      ((encodeBody host mtq cmd p).length + 1) k) = .error .malformedPacket := by
  have hframe : encodeFrame host mtq cmd p =
      36 :: (encodeBody host mtq cmd p ++ 58 ::
        (byteHex (crc8 (encodeBody host mtq cmd p ++ [58])) ++ [10])) := rfl
  have hflip : flipBit (encodeFrame host mtq cmd p)
      ((encodeBody host mtq cmd p).length + 1) k =
      36 :: (encodeBody host mtq cmd p ++ (58 ^^^ 2 ^ k) ::
        (byteHex (crc8 (encodeBody host mtq cmd p ++ [58])) ++ [10])) := by
    unfold flipBit
    rw [hframe, List.getD_cons_succ, List.getD_append_right _ _ _ _ (le_refl _),
      List.set_cons_succ, List.set_append_right _ _ (le_refl _)]
    simp [List.getD]
  rw [hflip]
  unfold decode_response
  rw [if_neg]
  rintro ⟨-, -, hmem⟩
  rcases List.mem_cons.1 hmem with h36 | hmem2
  · exact absurd h36 (by norm_num)
  rcases List.mem_append.1 hmem2 with hB | hmem3
  · exact (mem_encodeBody hB).2 rfl
  rcases List.mem_cons.1 hmem3 with hx | hmem4
  · exact xor_two_pow_ne 58 k hx.symm
  rcases List.mem_append.1 hmem4 with hcrc | h10
  · exact (mem_byteHex hcrc).2 rfl
  · exact absurd (List.mem_singleton.1 h10) (by norm_num)

/-! ## Claim theorems -/

/-- C1: for every source, destination and command id in 0..255 and every
payload of at most 65535 bytes, decoding the frame produced by encoding
(`_decode_response` applied to the output of `_encode_packet`) succeeds and
returns exactly the tuple (source, destination, command id, payload). -/
theorem C1_roundtrip (host mtq cmd : Nat) (p : List Nat)
    (hh : host < 256) (hm : mtq < 256) (hc : cmd < 256)
    (hp : p.length ≤ 65535) (hb : ∀ b ∈ p, b < 256) :
    ∃ frame, encode_packet host mtq cmd p = .ok frame ∧
      decode_response frame = .ok (host, mtq, cmd, p) := by
  refine ⟨encodeFrame host mtq cmd p, ?_, ?_⟩
  · unfold encode_packet
    rw [if_pos (by omega)]
  · exact decode_encode host mtq cmd p hh hm hc (by omega) hb

/-- Witness for C1 at source 0x11, destination 0x60, command 0x04,
payload `b"\xAB\x00"`. -/
theorem C1_roundtrip_witness :
    ∃ frame, encode_packet 17 96 4 [171, 0] = .ok frame ∧
      decode_response frame = .ok (17, 96, 4, [171, 0]) :=
  C1_roundtrip 17 96 4 [171, 0] (by decide) (by decide) (by decide) (by decide)
    (by decide)

set_option maxRecDepth 16384 in
/-- C2 counterexample: the `':'` separator sits at index 11 of the encoded
PING frame — strictly between the leading `'$'` (index 0) and the checksum
characters (indices 12–13) — yet flipping one of its bits makes decode fail
with the malformed-packet error, not the CRC mismatch error the claim
demands for every such position. -/
theorem C2_counterexample :
    (encodeFrame 17 96 4 []).getD 11 0 = 58 ∧
    (encodeFrame 17 96 4 []).length = 15 ∧
    decode_response (flipBit (encodeFrame 17 96 4 []) 11 0) =
      .error .malformedPacket ∧
    PyErr.malformedPacket ≠ PyErr.crcMismatch := by
  exact ⟨rfl, rfl, rfl, by decide⟩

/-- C2 (amended): flipping any single bit of a frame byte strictly between
the leading `'$'` and the `':'` separator makes decode fail with the CRC
mismatch error; flipping a bit of the `':'` separator itself (the last byte
before the checksum characters) makes it fail with the malformed-packet
error instead. -/
theorem C2_flip_detected (host mtq cmd : Nat) (p : List Nat) (i k : Nat)
    (hk : k < 8) (hi1 : 1 ≤ i) (hi2 : i ≤ (encodeBody host mtq cmd p).length + 1) :
    decode_response (flipBit (encodeFrame host mtq cmd p) i k) =
      (if i = (encodeBody host mtq cmd p).length + 1 then .error .malformedPacket
       else .error .crcMismatch) := by
  by_cases hcolon : i = (encodeBody host mtq cmd p).length + 1
  · rw [if_pos hcolon, hcolon]
    exact decode_flip_colon host mtq cmd p k hk
  · rw [if_neg hcolon]
    obtain ⟨j, rfl⟩ : ∃ j, i = j + 1 := ⟨i - 1, by omega⟩
    exact decode_flip_body host mtq cmd p j k (by omega) hk

/-- Witness for C2 (amended) on the PING frame: a flip inside the first body
byte gives the CRC mismatch error, a flip inside the `':'` separator gives
the malformed-packet error. -/
theorem C2_flip_detected_witness :
    decode_response (flipBit (encodeFrame 17 96 4 []) 1 0) = .error .crcMismatch ∧
    decode_response (flipBit (encodeFrame 17 96 4 []) 11 0) = .error .malformedPacket := by
  constructor
  · have h := C2_flip_detected 17 96 4 [] 1 0 (by decide) (by decide) (by decide)
    rwa [if_neg (by decide)] at h
  · have h := C2_flip_detected 17 96 4 [] 11 0 (by decide) (by decide) (by decide)
    rwa [if_pos (by decide)] at h

/-- C3 counterexample: encoding a PING (command 0x04, empty payload) from
host 0x11 to device 0x60 does not produce the spec's literal
`b"$11600400 00:CC\n"` (that string has a spurious space at index 9 and the
checksum `CC`). -/
theorem C3_counterexample :
    encode_packet 17 96 4 [] = .ok (encodeFrame 17 96 4 []) ∧
    encodeFrame 17 96 4 [] ≠ claimedPingLiteral := by
  exact ⟨rfl, by decide⟩

set_option maxRecDepth 16384 in
/-- C3 (amended): encoding a PING from host 0x11 to device 0x60 produces
exactly `b"$1160040000:87\n"` — `'$'`, then SRC, DST, CMD each as 2
uppercase hex chars, LEN as 4 uppercase hex chars, no payload chars, `':'`,
then the CRC-8 (poly 0xEB, init 0, non-reflected) of every byte from SRC
through the `':'` inclusive — which is 0x87, rendered `"87"` — then
`'\n'`. -/
theorem C3_ping_frame :
    encode_packet 17 96 4 [] =
      .ok [36, 49, 49, 54, 48, 48, 52, 48, 48, 48, 48, 58, 56, 55, 10] ∧
    crc8 [49, 49, 54, 48, 48, 52, 48, 48, 48, 48, 58] = 0x87 ∧
    byteHex 0x87 = [56, 55] := by
  exact ⟨rfl, rfl, rfl⟩

/-- C4: `set_dipole_moment` fails with the out-of-range `ValueError` — before
any serial write, since the `.ok` payload is what gets handed to
`_transport` — for every argument whose rounding lies outside
[-30000, 30000], and for every argument whose rounding lies inside it
succeeds, writing a two-byte payload that is the big-endian signed 16-bit
encoding of the rounded value. -/
theorem C4_set_dipole_moment (q : ℚ) :
    (pyRound q < -30000 ∨ 30000 < pyRound q →
      set_dipole_moment q = .error .outOfRangeValueError) ∧
    (-30000 ≤ pyRound q → pyRound q ≤ 30000 →
      ∃ b0 b1, set_dipole_moment q = .ok [b0, b1] ∧ b0 < 256 ∧ b1 < 256 ∧
        int16FromBytesBE b0 b1 = pyRound q) := by
  constructor
  · intro h
    unfold set_dipole_moment
    rw [if_neg (by omega)]
  · intro h1 h2
    refine ⟨((pyRound q % 65536).toNat) / 256, ((pyRound q % 65536).toNat) % 256, ?_, ?_, ?_, ?_⟩
    · unfold set_dipole_moment
      rw [if_pos ⟨h1, h2⟩]
      rfl
    · omega
    · omega
    · unfold int16FromBytesBE
      split <;> push_cast <;> omega

/-- Witness for C4 at the spec's boundary inputs 30001, −30001, 30000,
−30000. -/
theorem C4_set_dipole_moment_witness :
    set_dipole_moment 30001 = .error .outOfRangeValueError ∧
    set_dipole_moment (-30001) = .error .outOfRangeValueError ∧
    (∃ b0 b1, set_dipole_moment 30000 = .ok [b0, b1] ∧ b0 < 256 ∧ b1 < 256 ∧
      int16FromBytesBE b0 b1 = pyRound 30000) ∧
    (∃ b0 b1, set_dipole_moment (-30000) = .ok [b0, b1] ∧ b0 < 256 ∧ b1 < 256 ∧
      int16FromBytesBE b0 b1 = pyRound (-30000)) := by
  refine ⟨(C4_set_dipole_moment 30001).1 (Or.inr (by norm_num [pyRound])),
    (C4_set_dipole_moment (-30001)).1 (Or.inl (by norm_num [pyRound])),
    (C4_set_dipole_moment 30000).2 (by norm_num [pyRound]) (by norm_num [pyRound]),
    (C4_set_dipole_moment (-30000)).2 (by norm_num [pyRound]) (by norm_num [pyRound])⟩

/-- C5: because `_transport` takes no lock — `mtq_driver.py` contains no
threading primitive at all — the serial events of a foreground
GET_TEMPERATURE transact and of a concurrent `WatchdogPatter` keep-alive
PING can interleave so that the ping's write lands between the foreground
write and its read: the trace below is a derivable interleaving and contains
two writes with no intervening read, violating the single-flight discipline
the spec mandates. -/
theorem C5_no_lock_interleaving :
    Interleave (transportEvents 17 96 0x20 [] true) (transportEvents 17 96 0x04 [] false)
      [SerialEvent.write (encodeFrame 17 96 0x20 []),
       SerialEvent.write (encodeFrame 17 96 0x04 []), SerialEvent.read] ∧
    hasAdjacentWrites
      [SerialEvent.write (encodeFrame 17 96 0x20 []),
       SerialEvent.write (encodeFrame 17 96 0x04 []), SerialEvent.read] = true := by
  constructor
  · exact Interleave.left (Interleave.right (Interleave.left Interleave.nil))
  · rfl

/-- C6: `get_temperature` on the unsigned 16-bit big-endian payload of 2983
deci-Kelvin (bytes `0x0B 0xA7`) returns exactly 25.15 °C, computed as
2983/10 − 273.15 (arithmetic modelled exactly over ℚ). -/
theorem C6_temperature :
    get_temperature [0x0B, 0xA7] = .ok (some (2515 / 100)) ∧
    (2515 / 100 : ℚ) = 2983 / 10 - 27315 / 100 ∧
    0x0B * 256 + 0xA7 = 2983 := by
  refine ⟨?_, by norm_num, by norm_num⟩
  show Except.ok (some ((0x0B * 256 + 0xA7 : ℚ) / 10 - 27315 / 100)) = _
  norm_num

/-- C7: `disconnect` always finishes with `serial_conn = None` and raises
nothing; on an open session it attempts `set_dipole_moment(0.0)` then
`stop()` (skipping `stop` if the first raises), swallows the communication
error with only a logged warning, and still closes the stream; on a closed
or absent handle it is a no-op. -/
theorem C7_disconnect (conn : Option Bool) (e1 e2 : Option PyErr) :
    (disconnect conn e1 e2).conn = none ∧
    (disconnect conn e1 e2).raised = none ∧
    (conn = some true →
      (disconnect conn e1 e2).actions =
        (if e1.isSome then [DAction.safeSetZero, DAction.close]
         else [DAction.safeSetZero, DAction.safeStop, DAction.close]) ∧
      (disconnect conn e1 e2).warned = (e1.isSome || e2.isSome)) ∧
    (conn ≠ some true →
      (disconnect conn e1 e2).actions = [] ∧ (disconnect conn e1 e2).warned = false) := by
  rcases conn with _ | b
  · simp [disconnect]
  · rcases b with _ | _
    · simp [disconnect]
    · rcases e1 with _ | x
      · rcases e2 with _ | y <;> simp [disconnect]
      · simp [disconnect]

/-- Witness for C7: an open session whose safety sequence fails on the first
call still closes and raises nothing; a `None` handle is a no-op. -/
theorem C7_disconnect_witness :
    (disconnect (some true) (some .timeout) none).conn = none ∧
    (disconnect (some true) (some .timeout) none).raised = none ∧
    (disconnect (some true) (some .timeout) none).actions =
      [DAction.safeSetZero, DAction.close] ∧
    (disconnect none none none).actions = [] := by
  refine ⟨(C7_disconnect (some true) (some .timeout) none).1,
    (C7_disconnect (some true) (some .timeout) none).2.1, ?_, ?_⟩
  · have h := ((C7_disconnect (some true) (some .timeout) none).2.2.1 rfl).1
    simpa using h
  · exact ((C7_disconnect none none none).2.2.2 (by simp)).1

/-- C8: `_encode_packet` fails (the `OverflowError` of
`len(payload).to_bytes(2, "big")`, the spec's PayloadTooLarge kind) for
every payload longer than 65535 bytes, and succeeds with the assembled frame
for every payload of length 0 through 65535. -/
theorem C8_payload_size (host mtq cmd : Nat) (p : List Nat) :
    (p.length ≤ 65535 → encode_packet host mtq cmd p = .ok (encodeFrame host mtq cmd p)) ∧
    (65535 < p.length → encode_packet host mtq cmd p = .error .overflowError) := by
  unfold encode_packet
  constructor <;> intro h
  · rw [if_pos (by omega)]
  · rw [if_neg (by omega)]

/-- Witness for C8 at a 1-byte and a 65536-byte payload. -/
theorem C8_payload_size_witness :
    encode_packet 17 96 4 [0] = .ok (encodeFrame 17 96 4 [0]) ∧
    encode_packet 17 96 4 (List.replicate 65536 0) = .error .overflowError := by
  refine ⟨(C8_payload_size 17 96 4 [0]).1 (by decide),
    (C8_payload_size 17 96 4 (List.replicate 65536 0)).2 ?_⟩
  rw [List.length_replicate]
  norm_num

/-- C9: `_transport` accepts any well-formed response frame: for every frame
that decodes successfully — whatever destination address or command id it
names — the payload is returned; the decoded destination and command are
discarded, and a source address differing from `mtq_address` only sets the
logged-warning flag while the payload is still returned. -/
theorem C9_transport_accepts_any (mtqAddr src dst cmd : Nat) (p : List Nat)
    (hs : src < 256) (hd : dst < 256) (hc : cmd < 256) (hp : p.length ≤ 65535)
    (hb : ∀ b ∈ p, b < 256) :
    transportHandleResponse mtqAddr (encodeFrame src dst cmd p) =
      .ok (p, decide (src ≠ mtqAddr)) := by
  unfold transportHandleResponse
  rw [decode_encode src dst cmd p hs hd hc (by omega) hb]

/-- Witness for C9: a frame from source 0x22 (not the expected 0x60), with a
destination and command unrelated to any request, is still accepted and its
payload returned, with only the warning flag set. -/
theorem C9_transport_accepts_any_witness :
    transportHandleResponse 96 (encodeFrame 34 51 85 [1]) = .ok ([1], true) := by
  have h := C9_transport_accepts_any 96 34 51 85 [1] (by decide) (by decide)
    (by decide) (by decide) (by decide)
  simpa using h

/-- C10 counterexample: `who_am_i` on an empty payload returns Python's
`b""` (`some []`), not `None` — so the claim that every response-bearing
operation returns `None` on an empty payload fails for `who_am_i`. -/
theorem C10_counterexample :
    who_am_i [] = some [] ∧ (some [] : Option (List Nat)) ≠ none := by
  exact ⟨rfl, by simp⟩

/-- C10 (amended): on a structurally valid, checksum-correct reply with an
empty payload, `identify`, `get_serial_no`, `get_status`, `get_temperature`,
`get_dipole_moment` and `get_dipole_moment_setpoint` all return `None`
rather than a typed value or an error, while `who_am_i` returns the empty
byte string `b""` (which is falsy like `None` but not `None`). -/
theorem C10_empty_payload :
    who_am_i [] = some [] ∧
    identify [] = .ok none ∧
    get_serial_no [] = .ok none ∧
    get_status [] = .ok none ∧
    get_temperature [] = .ok none ∧
    get_dipole_moment [] = .ok none ∧
    get_dipole_moment_setpoint [] = .ok none := by
  exact ⟨rfl, rfl, rfl, rfl, rfl, rfl, rfl⟩

end Magtorq
